import Mathlib

/-!
Shallow embedding of `secure_chatbot_with_images.py` (a secure RAG chatbot
with image annotation).  Pure logic is translated directly; calls to
external services (the Azure content-safety scoring service, the vector
store, the cross-encoder re-ranker, the LLM stream and the vision-language
model) are modelled as oracle functions passed to the embedded code just as
the real code receives their responses.
-/

namespace SecureChatbot

/-- Per-category severity thresholds set in `ContentSafetyGuard.__init__`. -/
def thresholds : List (String × Nat) :=
  [("hate", 2), ("sexual", 2), ("violence", 2), ("self_harm", 2)]

/-- The lookup `self.thresholds.get(category_name, 2)` used in `check_content`. -/
def thresholdFor (name : String) : Nat :=
  (thresholds.lookup name).getD 2

/-- The threshold actually compared against the severity in `check_content`:
the default one, lowered by one with floor one when `strict_mode` is set. -/
def effectiveThreshold (strict_mode : Bool) (name : String) : Nat :=
  if strict_mode then max 1 (thresholdFor name - 1) else thresholdFor name

/-- Python `str.lower()` as used on category names. -/
def lowerName (s : String) : String := String.mk (s.data.map Char.toLower)

/-- Python `str.upper()` as used when rendering a blocking reason. -/
def upperName (s : String) : String := String.mk (s.data.map Char.toUpper)

/-- The dictionary returned by `ContentSafetyGuard.check_content`.
`categories` lists, per analysed category, its lower-cased name, the
reported severity and the recorded threshold. -/
structure SafetyVerdict where
  safe : Bool
  blocked : Bool
  reason : String
  categories : List (String × Nat × Nat)
deriving DecidableEq

/-- One entry of the `reasons` list in `check_content`. -/
def reasonFor (name : String) (severity : Nat) : String :=
  upperName name ++ " (severity: " ++ toString severity ++ ")"

/-- Embeds `ContentSafetyGuard.check_content`.  The service call
`self.client.analyze_text(request)` is the oracle `analyze`: it either
returns the per-category `(category, severity)` analysis or an error
message (the `HttpResponseError` branch).  The loop over
`response.categories_analysis` accumulates `results`, `reasons` and
`blocked`; `blocked` is set exactly when a reason is appended. -/
def check_contentResult (strict_mode : Bool) :
    Except String (List (String × Nat)) → SafetyVerdict
  | Except.error e =>
      { safe := false, blocked := true, reason := "Error: " ++ e, categories := [] }
  | Except.ok items =>
      let results := items.map fun it =>
        (lowerName it.1, it.2, thresholdFor (lowerName it.1))
      let reasons := items.filterMap fun it =>
        if effectiveThreshold strict_mode (lowerName it.1) ≤ it.2 then
          some (reasonFor (lowerName it.1) it.2)
        else none
      let blocked := !reasons.isEmpty
      { safe := !blocked, blocked := blocked,
        reason := if reasons.isEmpty then "Safe" else String.intercalate ", " reasons,
        categories := results }

/-- The `try`-wrapped body of `check_content`: the service is consulted on
the text and its response handled by `check_contentResult`. -/
def check_content (analyze : String → Except String (List (String × Nat)))
    (text : String) (strict_mode : Bool) : SafetyVerdict :=
  check_contentResult strict_mode (analyze text)

/-- The fixed multilingual pattern list of `ContentSafetyGuard.detect_jailbreak`. -/
def jailbreak_patterns : List String :=
  ["ignore previous instructions", "ignore all previous", "forget everything",
   "you are now", "pretend you are", "act as if",
   "abaikan instruksi sebelumnya", "lupakan semua", "kamu sekarang adalah",
   "berpura-pura menjadi", "anggap kamu adalah",
   "system prompt", "override instructions"]

/-- The dictionary returned by `detect_jailbreak`. -/
structure JailbreakResult where
  is_jailbreak : Bool
  confidence : String
  patterns : List String
deriving DecidableEq

/-- Does `pat` occur at the start of `l`?  Helper for substring search. -/
def patMatches : List Char → List Char → Bool
  | [], _ => true
  | _ :: _, [] => false
  | c :: cs, d :: ds => c == d && patMatches cs ds

/-- Does `pat` occur contiguously anywhere in `l`?  This is Python's
substring containment `pat in l`. -/
def patInText (pat : List Char) : List Char → Bool
  | [] => patMatches pat []
  | d :: ds => patMatches pat (d :: ds) || patInText pat ds

/-- Embeds `ContentSafetyGuard.detect_jailbreak`: case-insensitive substring
match of each fixed pattern against the lowered input text. -/
def detect_jailbreak (text : String) : JailbreakResult :=
  let text_lower := String.mk (text.data.map Char.toLower)
  let detected := jailbreak_patterns.filter fun p => patInText p.data text_lower.data
  { is_jailbreak := decide (0 < detected.length),
    confidence := if 0 < detected.length then "high" else "low",
    patterns := detected }

/-- The Unicode whitespace characters removed by the Python `str.split()`
normalisation step of `is_image_based_pdf`: CPython treats a character as
whitespace exactly when it is in this list (tab, line feed, vertical tab,
form feed, carriage return, the separator controls U+001C-U+001F, space,
next line, no-break space, the Ogham space mark, the U+2000-U+200A spaces,
the line and paragraph separators, the narrow no-break space, the medium
mathematical space and the ideographic space). -/
def pyWhitespaceChars : List Char :=
  ['\x09', '\x0A', '\x0B', '\x0C', '\x0D', '\x1C', '\x1D', '\x1E', '\x1F', '\x20',
   '\x85', '\xA0', '\u1680',
   '\u2000', '\u2001', '\u2002', '\u2003', '\u2004', '\u2005', '\u2006', '\u2007',
   '\u2008', '\u2009', '\u200A',
   '\u2028', '\u2029', '\u202F', '\u205F', '\u3000']

/-- Is `c` whitespace for Python's `str.split()`? -/
def isPyWhitespace (c : Char) : Bool :=
  pyWhitespaceChars.contains c

/-- The cleaned text computed inside `OCRExtractor.is_image_based_pdf`:
the markdown characters hash, star and dash are removed, then all
whitespace is removed. -/
def cleanChars (doc_text : String) : List Char :=
  (doc_text.data.filter fun c => !(c == '#' || c == '*' || c == '-')).filter
    fun c => !isPyWhitespace c

/-- Embeds `OCRExtractor.is_image_based_pdf`: true (image-based) exactly
when the cleaned character count is below the threshold. -/
def is_image_based_pdf (doc_text : String) (threshold : Nat) : Bool :=
  decide ((cleanChars doc_text).length < threshold)

/-- Fuelled version of the stride-1000 slicing loop
`for i in range(0, len(ocr_text), 1000)` of `process_document`.  Each step
takes the next 1000-character slice; the fuel only needs to dominate the
number of slices, and `splitOcr` supplies the text length, which does. -/
def splitOcrGo : Nat → List Char → List (List Char)
  | _, [] => []
  | 0, _ :: _ => []
  | fuel + 1, c :: cs => ((c :: cs).take 1000) :: splitOcrGo fuel ((c :: cs).drop 1000)

/-- The ordered list of 1000-character slices of an OCR page text. -/
def splitOcr (text : List Char) : List (List Char) :=
  splitOcrGo text.length text

/-- One indexed OCR chunk produced by `process_document`: the page number
and part index stored in the chunk metadata, and the sliced page text that
is embedded in the chunk's page content.  Pages of at most 1000 characters
get a single chunk without a part index. -/
structure OcrDoc where
  page : Nat
  part : Option Nat
  body : List Char
deriving DecidableEq

/-- The enumeration of slices into chunks, carrying the running part index
`i // chunk_size` of the source loop. -/
def partDocs (page : Nat) : Nat → List (List Char) → List OcrDoc
  | _, [] => []
  | i, p :: ps => { page := page, part := some i, body := p } :: partDocs page (i + 1) ps

/-- Embeds the per-page OCR chunk construction of `process_document`
(lines 754-787): texts longer than 1000 characters are split into indexed
parts, shorter ones become a single chunk. -/
def ocrPageDocs (page : Nat) (text : List Char) : List OcrDoc :=
  if 1000 < text.length then partDocs page 0 (splitOcr text)
  else [{ page := page, part := none, body := text }]

/-- A structural item of the converted document, as consumed by
`ImageAnnotator`: the `isinstance(item, PictureItem)` test becomes the
`isPicture` flag, `item.text` the `text` field (empty when absent) and
`item.prov[0].page_no` the optional `page`. -/
structure DocItem where
  isPicture : Bool
  caption : String
  text : String
  page : Option Nat
deriving DecidableEq

/-- Rendering of the page provenance: the page number, or the string
`Unknown` when no provenance exists. -/
def pageStr : Option Nat → String
  | some n => toString n
  | none => "Unknown"

/-- Embeds `ImageAnnotator._get_image_context`: stripped text of all items
sharing the picture's page, joined with spaces and truncated to the
500-character window; empty when the page is unknown. -/
def get_image_context (doc : List DocItem) (pic : DocItem) : String :=
  match pic.page with
  | none => ""
  | some pn =>
      let page_text := doc.filterMap fun it =>
        if it.page == some pn && !(it.text == "") then some it.text.trim else none
      (String.intercalate " " page_text).take 500

/-- The annotation record built per figure by
`ImageAnnotator.annotate_images_in_document`. -/
structure Annotation where
  index : Nat
  caption : String
  page : Option Nat
  context : String
  enriched_description : String
  annotation_text : String
deriving DecidableEq

/-- The loop body of `annotate_images_in_document` for one picture at
enumeration index `idx`.  The vision-language model call
`describe_image_with_vlm` is the oracle `vlm`. -/
def mkAnnotation (vlm : DocItem → String → String) (doc : List DocItem)
    (idx : Nat) (pic : DocItem) : Annotation :=
  let context := get_image_context doc pic
  let desc := vlm pic context
  { index := idx, caption := pic.caption, page := pic.page,
    context := context.take 200, enriched_description := desc,
    annotation_text := "[IMAGE " ++ toString (idx + 1) ++ " - Page " ++ pageStr pic.page
      ++ "] " ++ pic.caption ++ "\n\nVLM Analysis: " ++ desc }

/-- The `for idx, picture in enumerate(pictures)` loop of
`annotate_images_in_document`. -/
def annotateGo (vlm : DocItem → String → String) (doc : List DocItem) :
    Nat → List DocItem → List Annotation
  | _, [] => []
  | idx, p :: ps => mkAnnotation vlm doc idx p :: annotateGo vlm doc (idx + 1) ps

/-- Embeds `ImageAnnotator.annotate_images_in_document`: collect the
picture items in document order, then annotate each with its enumeration
index. -/
def annotate_images_in_document (vlm : DocItem → String → String)
    (doc : List DocItem) : List Annotation :=
  annotateGo vlm doc 0 (doc.filter fun it => it.isPicture)

/-- A retrieved chunk as seen by the query pipeline: its page content and
the `type` metadata entry (absent when the metadata has no such key). -/
structure Doc where
  page_content : String
  docType : Option String
deriving DecidableEq

/-- Stable insertion into a list sorted by descending score: the new
element goes before the first element whose score does not exceed it.
Because the inserted element always comes from earlier in the input than
the already-sorted tail, this realises the stable descending sort contract
of Python's `list.sort(key=..., reverse=True)`. -/
def insertDesc {α : Type} (x : α × Int) : List (α × Int) → List (α × Int)
  | [] => [x]
  | y :: ys => if y.2 ≤ x.2 then x :: y :: ys else y :: insertDesc x ys

/-- Stable descending sort by score, modelling
`doc_score_pairs.sort(key=lambda x: x[1], reverse=True)`. -/
def sortDescByScore {α : Type} : List (α × Int) → List (α × Int)
  | [] => []
  | x :: xs => insertDesc x (sortDescByScore xs)

/-- Embeds `SecureChatbotRAGWithImages.rerank_results`: score each
(query, content) pair through the cross-encoder oracle `predict`, sort the
pairs by descending score with a stable sort, keep the first `top_k`.
The early return on an empty document list coincides with the general
formula at the empty list. -/
def rerank_results (predict : String → String → Int) (query : String)
    (documents : List Doc) (top_k : Nat) : List (Doc × Int) :=
  (sortDescByScore (documents.map fun d => (d, predict query d.page_content))).take top_k

/-- The session state mutated by `stream_response`: the cumulative
blocked-input counter `self.blocked_count`. -/
structure SessionState where
  blocked_count : Nat
deriving DecidableEq

/-- The violation budget `self.max_blocked`. -/
def max_blocked : Nat := 3

/-- One element of the event stream yielded by `stream_response`. -/
inductive Event where
  | status (content : String)
  | error (content : String)
  | chunk (content : String)
  | complete (content : String)
deriving DecidableEq

/-- The external collaborators consulted by `stream_response`: the
content-safety scoring service, the vector store's similarity search, the
cross-encoder and the streaming LLM. -/
structure Oracles where
  analyze : String → Except String (List (String × Nat))
  search : String → Nat → List Doc
  predict : String → String → Int
  stream : String → List String

def msgInputCheck : String := "🛡️ Memeriksa keamanan input..."

def msgRetrieve : String := "🔍 Mencari informasi relevan (termasuk gambar)..."

def msgSort : String := "📊 Menyortir hasil..."

def msgGenerate : String := "💭 Menghasilkan jawaban..."

def msgValidate : String := "✅ Memvalidasi output..."

/-- The session-terminated error content emitted when the violation budget
is exhausted. -/
def sessionTerminatedMsg : String := "\n🚫 Terlalu banyak pelanggaran. Sesi diakhiri."

/-- The error content of the jailbreak branch, listing matched patterns. -/
def jailbreakMsg (patterns : List String) : String :=
  "⚠️ Terdeteksi percobaan prompt injection/jailbreak\nPola: "
    ++ String.intercalate ", " patterns

def inputBlockedMsg (reason : String) : String :=
  "⚠️ Input diblokir karena: " ++ reason

def outputBlockedMsg (reason : String) : String :=
  "\n\n⚠️ Output diblokir karena: " ++ reason

def imagesFoundMsg (n : Nat) : String :=
  "🖼️ Ditemukan " ++ toString n ++ " gambar relevan dalam hasil"

def ocrFoundMsg (n : Nat) : String :=
  "📋 Ditemukan " ++ toString n ++ " chunk OCR relevan dalam hasil"

/-- The prompt rendered by `self.prompt.format(...)` from the template in
`SecureChatbotRAGWithImages.__init__`, including the empty-history default
applied at the call site. -/
def promptText (context question chat_history : String) : String :=
  "\nYou are a helpful AI assistant. Answer questions based on the provided context and conversation history.\nThe context may include detailed descriptions of images, figures, diagrams, and charts from the document.\nBe clear, thorough, and accurate. If you cannot find the answer, say so.\n\nConversation History:\n"
    ++ (if chat_history == "" then "No previous conversation." else chat_history)
    ++ "\n\nContext from Document:\n" ++ context
    ++ "\n\nCurrent Question: " ++ question
    ++ "\n\nProvide a comprehensive answer based on the context and conversation history:"

/-- Embeds `SecureChatbotRAGWithImages.stream_response` as a pure function
from the session state, the question and the oracle responses to the list
of yielded events and the final session state.  Each branch mirrors the
source: jailbreak check, input content-safety check with the violation
budget, retrieval, re-ranking, generation streaming, and the strict output
content-safety check. -/
def stream_response (o : Oracles) (st : SessionState) (question : String)
    (k top_k_rerank : Nat) (chat_history : String) : List Event × SessionState :=
  let jb := detect_jailbreak question
  if jb.is_jailbreak then
    ([Event.error (jailbreakMsg jb.patterns)],
     { blocked_count := st.blocked_count + 1 })
  else
    let safety := check_content o.analyze question false
    if safety.blocked then
      let st1 : SessionState := { blocked_count := st.blocked_count + 1 }
      let base := [Event.status msgInputCheck, Event.error (inputBlockedMsg safety.reason)]
      if max_blocked ≤ st1.blocked_count then
        (base ++ [Event.error sessionTerminatedMsg], st1)
      else (base, st1)
    else
      let initial_results := o.search question k
      let reranked := rerank_results o.predict question initial_results top_k_rerank
      let top_docs := reranked.map Prod.fst
      let image_docs := top_docs.filter fun d => d.docType == some "image_annotation"
      let ocr_docs := top_docs.filter fun d => d.docType == some "ocr_text"
      let context := String.intercalate "\n\n" (top_docs.map Doc.page_content)
      let gen := o.stream (promptText context question chat_history)
      let full_response := String.join gen
      let out := check_content o.analyze full_response true
      let preOut := [Event.status msgInputCheck, Event.status msgRetrieve, Event.status msgSort]
        ++ (if image_docs.isEmpty then [] else [Event.status (imagesFoundMsg image_docs.length)])
        ++ (if ocr_docs.isEmpty then [] else [Event.status (ocrFoundMsg ocr_docs.length)])
        ++ [Event.status msgGenerate] ++ gen.map Event.chunk ++ [Event.status msgValidate]
      if out.blocked then
        (preOut ++ [Event.error (outputBlockedMsg out.reason)], st)
      else
        (preOut ++ [Event.complete ""], st)

theorem data_append (s t : String) : (s ++ t).data = s.data ++ t.data := by
  cases s
  cases t
  rfl

theorem ne_of_head_ne (s t : String) (h : s.data.head? ≠ t.data.head?) : s ≠ t := by
  intro he
  exact h (by rw [he])

theorem jailbreakMsg_head (pats : List String) :
    (jailbreakMsg pats).data.head? = some '⚠' := by
  rw [jailbreakMsg, data_append]
  rfl

theorem jailbreakMsg_ne_terminated (pats : List String) :
    jailbreakMsg pats ≠ sessionTerminatedMsg := by
  apply ne_of_head_ne
  rw [jailbreakMsg_head]
  intro h
  exact absurd (Option.some.inj h) (by decide)

theorem splitOcrGo_flatten (fuel : Nat) (l : List Char) (h : l.length ≤ fuel) :
    (splitOcrGo fuel l).flatten = l := by
  induction fuel generalizing l with
  | zero =>
    have hl : l = [] := List.length_eq_zero.mp (Nat.le_zero.mp h)
    subst hl
    rfl
  | succ n ih =>
    cases l with
    | nil => rfl
    | cons c cs =>
      have hlen : ((c :: cs).drop 1000).length ≤ n := by
        simp only [List.length_drop, List.length_cons]
        simp only [List.length_cons] at h
        omega
      simp only [splitOcrGo, List.flatten_cons]
      rw [ih _ hlen, List.take_append_drop]

theorem splitOcrGo_length (fuel : Nat) (l : List Char) (h : l.length ≤ fuel) :
    (splitOcrGo fuel l).length = (l.length + 999) / 1000 := by
  induction fuel generalizing l with
  | zero =>
    have hl : l = [] := List.length_eq_zero.mp (Nat.le_zero.mp h)
    subst hl
    rfl
  | succ n ih =>
    cases l with
    | nil => rfl
    | cons c cs =>
      have hlen : ((c :: cs).drop 1000).length ≤ n := by
        simp only [List.length_drop, List.length_cons]
        simp only [List.length_cons] at h
        omega
      simp only [splitOcrGo, List.length_cons]
      rw [ih _ hlen]
      simp only [List.length_drop, List.length_cons]
      omega

theorem splitOcrGo_short (fuel : Nat) (l : List Char) :
    ∀ p ∈ splitOcrGo fuel l, p.length ≤ 1000 := by
  induction fuel generalizing l with
  | zero =>
    cases l with
    | nil => intro p hp; cases hp
    | cons c cs => intro p hp; cases hp
  | succ n ih =>
    cases l with
    | nil => intro p hp; cases hp
    | cons c cs =>
      intro p hp
      rcases List.mem_cons.mp hp with h1 | h2
      · subst h1
        rw [List.length_take]
        exact min_le_left _ _
      · exact ih _ p h2

theorem splitOcr_flatten (l : List Char) : (splitOcr l).flatten = l :=
  splitOcrGo_flatten l.length l le_rfl

theorem splitOcr_length (l : List Char) :
    (splitOcr l).length = (l.length + 999) / 1000 :=
  splitOcrGo_length l.length l le_rfl

theorem splitOcr_short (l : List Char) : ∀ p ∈ splitOcr l, p.length ≤ 1000 :=
  splitOcrGo_short l.length l

theorem partDocs_length (page i : Nat) (ps : List (List Char)) :
    (partDocs page i ps).length = ps.length := by
  induction ps generalizing i with
  | nil => rfl
  | cons p ps ih => simp [partDocs, ih]

theorem partDocs_map_body (page i : Nat) (ps : List (List Char)) :
    (partDocs page i ps).map OcrDoc.body = ps := by
  induction ps generalizing i with
  | nil => rfl
  | cons p ps ih => simp [partDocs, ih]

theorem partDocs_map_part (page i : Nat) (ps : List (List Char)) :
    (partDocs page i ps).map OcrDoc.part = (List.range' i ps.length).map some := by
  induction ps generalizing i with
  | nil => rfl
  | cons p ps ih => simp [partDocs, ih, List.range']

theorem partDocs_mem (page i : Nat) (ps : List (List Char)) :
    ∀ d ∈ partDocs page i ps, d.page = page ∧ d.body ∈ ps := by
  induction ps generalizing i with
  | nil => intro d hd; cases hd
  | cons p ps ih =>
    intro d hd
    rcases List.mem_cons.mp hd with h1 | h2
    · subst h1
      exact ⟨rfl, List.mem_cons_self _ _⟩
    · rcases ih (i + 1) d h2 with ⟨hp, hb⟩
      exact ⟨hp, List.mem_cons_of_mem _ hb⟩

theorem annotateGo_length (vlm : DocItem → String → String) (doc : List DocItem)
    (i : Nat) (ps : List DocItem) : (annotateGo vlm doc i ps).length = ps.length := by
  induction ps generalizing i with
  | nil => rfl
  | cons p ps ih => simp [annotateGo, ih]

theorem annotateGo_map_index (vlm : DocItem → String → String) (doc : List DocItem)
    (i : Nat) (ps : List DocItem) :
    (annotateGo vlm doc i ps).map Annotation.index = List.range' i ps.length := by
  induction ps generalizing i with
  | nil => rfl
  | cons p ps ih => simp [annotateGo, ih, List.range', mkAnnotation]

theorem mem_insertDesc {α : Type} (x a : α × Int) (l : List (α × Int)) :
    a ∈ insertDesc x l ↔ a = x ∨ a ∈ l := by
  induction l with
  | nil => simp [insertDesc]
  | cons y ys ih =>
    simp only [insertDesc]
    split
    · simp [List.mem_cons]
    · simp only [List.mem_cons, ih]
      tauto

theorem insertDesc_perm {α : Type} (x : α × Int) (l : List (α × Int)) :
    (insertDesc x l).Perm (x :: l) := by
  induction l with
  | nil => exact List.Perm.refl _
  | cons y ys ih =>
    simp only [insertDesc]
    split
    · exact List.Perm.refl _
    · exact (ih.cons y).trans (List.Perm.swap x y ys)

theorem sortDescByScore_perm {α : Type} (l : List (α × Int)) :
    (sortDescByScore l).Perm l := by
  induction l with
  | nil => exact List.Perm.refl _
  | cons x xs ih => exact (insertDesc_perm x (sortDescByScore xs)).trans (ih.cons x)

theorem pairwise_insertDesc {α : Type} (x : α × Int) (l : List (α × Int))
    (h : List.Pairwise (fun a b : α × Int => b.2 ≤ a.2) l) :
    List.Pairwise (fun a b : α × Int => b.2 ≤ a.2) (insertDesc x l) := by
  induction l with
  | nil => simp [insertDesc]
  | cons y ys ih =>
    rcases List.pairwise_cons.mp h with ⟨hy, hys⟩
    simp only [insertDesc]
    split
    · rename_i hle
      refine List.pairwise_cons.mpr ⟨?_, h⟩
      intro z hz
      rcases List.mem_cons.mp hz with h1 | h2
      · subst h1; exact hle
      · exact le_trans (hy z h2) hle
    · rename_i hgt
      refine List.pairwise_cons.mpr ⟨?_, ih hys⟩
      intro z hz
      rcases (mem_insertDesc x z ys).mp hz with h1 | h2
      · subst h1; omega
      · exact hy z h2

theorem sortDescByScore_pairwise {α : Type} (l : List (α × Int)) :
    List.Pairwise (fun a b : α × Int => b.2 ≤ a.2) (sortDescByScore l) := by
  induction l with
  | nil => exact List.Pairwise.nil
  | cons x xs ih => exact pairwise_insertDesc x (sortDescByScore xs) ih

theorem filter_insertDesc {α : Type} (s : Int) (x : α × Int) (l : List (α × Int)) :
    (insertDesc x l).filter (fun a => a.2 == s)
      = if x.2 == s then x :: l.filter (fun a => a.2 == s)
        else l.filter (fun a => a.2 == s) := by
  induction l with
  | nil =>
    by_cases hx : x.2 = s
    · have hxb : (x.2 == s) = true := by simp [hx]
      simp [insertDesc, List.filter, hxb]
    · have hxb : (x.2 == s) = false := by simp [hx]
      simp [insertDesc, List.filter, hxb]
  | cons y ys ih =>
    simp only [insertDesc]
    split
    · rename_i hle
      by_cases hx : x.2 = s
      · have hxb : (x.2 == s) = true := by simp [hx]
        simp [List.filter, hxb]
      · have hxb : (x.2 == s) = false := by simp [hx]
        simp [List.filter, hxb]
    · rename_i hgt
      push_neg at hgt
      by_cases hx : x.2 = s
      · have hxb : (x.2 == s) = true := by simp [hx]
        have hy : ¬(y.2 = s) := by omega
        have hyb : (y.2 == s) = false := by simp [hy]
        simp [List.filter, hxb, hyb, ih]
      · have hxb : (x.2 == s) = false := by simp [hx]
        by_cases hys : y.2 = s
        · have hyb : (y.2 == s) = true := by simp [hys]
          simp [List.filter, hxb, hyb, ih]
        · have hyb : (y.2 == s) = false := by simp [hys]
          simp [List.filter, hxb, hyb, ih]

theorem filter_sortDescByScore {α : Type} (s : Int) (l : List (α × Int)) :
    (sortDescByScore l).filter (fun a => a.2 == s) = l.filter (fun a => a.2 == s) := by
  induction l with
  | nil => rfl
  | cons x xs ih =>
    simp only [sortDescByScore]
    rw [filter_insertDesc]
    by_cases hx : x.2 = s
    · have hxb : (x.2 == s) = true := by simp [hx]
      simp [List.filter, hxb, ih]
    · have hxb : (x.2 == s) = false := by simp [hx]
      simp [List.filter, hxb, ih]

theorem filter_take_isPref {α : Type} (p : α → Bool) (n : Nat) (l : List α) :
    ∃ rest, (l.take n).filter p ++ rest = l.filter p := by
  refine ⟨(l.drop n).filter p, ?_⟩
  rw [← List.filter_append, List.take_append_drop]

theorem filterMap_guard_isEmpty {α β : Type} (p : α → Prop) [DecidablePred p]
    (g : α → β) (l : List α) :
    (l.filterMap fun x => if p x then some (g x) else none).isEmpty
      = !(l.any fun x => decide (p x)) := by
  induction l with
  | nil => rfl
  | cons x xs ih =>
    by_cases hx : p x
    · simp [List.filterMap_cons, hx]
    · simp [List.filterMap_cons, hx, ih]

/-- Claim C2: whenever the content-safety service call fails during
`check_content`, the returned verdict is blocked (`safe = false`,
`blocked = true`) with the error message as the reason; a service-call
failure is never reported as safe. -/
theorem c2_service_failure_blocks
    (analyze : String → Except String (List (String × Nat))) (text : String)
    (strict_mode : Bool) (e : String) (h : analyze text = Except.error e) :
    check_content analyze text strict_mode
      = { safe := false, blocked := true, reason := "Error: " ++ e, categories := [] } := by
  rw [check_content, h]
  rfl

/-- Witness for C2 at a concretely failing service call. -/
theorem c2_service_failure_blocks_witness :
    (fun _ : String => (Except.error "boom" : Except String (List (String × Nat)))) "teks"
        = Except.error "boom"
    ∧ check_content
        (fun _ : String => (Except.error "boom" : Except String (List (String × Nat))))
        "teks" true
      = { safe := false, blocked := true, reason := "Error: " ++ "boom", categories := [] } :=
  ⟨rfl, c2_service_failure_blocks _ "teks" true "boom" rfl⟩

/-- Claim C9, counterexample: with `strict_mode` set, a category whose
severity is 1 is blocked (the effective threshold is `max 1 (2 - 1) = 1`),
yet the per-category entry records the default threshold 2 — so the
recorded threshold is not the one compared in the blocking decision. -/
theorem c9_recorded_threshold_counterexample :
    (check_content (fun _ => Except.ok [("Hate", 1)]) "teks" true).blocked = true
    ∧ (check_content (fun _ => Except.ok [("Hate", 1)]) "teks" true).categories
        = [("hate", 1, 2)]
    ∧ effectiveThreshold true "hate" = 1
    ∧ (2 : Nat) ≠ 1 := by
  exact ⟨by decide, by decide, by decide, by decide⟩

/-- Claim C9, amended: each per-category entry records the default
per-category threshold `thresholds.get(name, 2)` regardless of strict
mode, while the blocking decision compares the severity against the
effective threshold (lowered to `max 1 (default - 1)` when strict); the
two coincide only when strict mode is off. -/
theorem c9_recorded_threshold_amended
    (analyze : String → Except String (List (String × Nat))) (text : String)
    (strict_mode : Bool) (items : List (String × Nat))
    (h : analyze text = Except.ok items) :
    (check_content analyze text strict_mode).categories
      = items.map (fun it => (lowerName it.1, it.2, thresholdFor (lowerName it.1)))
    ∧ (check_content analyze text strict_mode).blocked
      = items.any (fun it => decide (effectiveThreshold strict_mode (lowerName it.1) ≤ it.2))
    ∧ ∀ name : String, effectiveThreshold false name = thresholdFor name := by
  rw [check_content, h]
  refine ⟨rfl, ?_, fun name => rfl⟩
  show (!(items.filterMap fun it =>
      if effectiveThreshold strict_mode (lowerName it.1) ≤ it.2 then
        some (reasonFor (lowerName it.1) it.2)
      else none).isEmpty) = _
  rw [filterMap_guard_isEmpty]
  rw [Bool.not_not]

/-- Witness for C9's amended claim at a concrete service response. -/
theorem c9_recorded_threshold_amended_witness :
    (fun _ : String => (Except.ok [("Hate", 1), ("Violence", 4)]
        : Except String (List (String × Nat)))) "teks"
      = Except.ok [("Hate", 1), ("Violence", 4)]
    ∧ ((check_content
          (fun _ : String => (Except.ok [("Hate", 1), ("Violence", 4)]
            : Except String (List (String × Nat)))) "teks" true).categories
        = [("Hate", 1), ("Violence", 4)].map
            (fun it => (lowerName it.1, it.2, thresholdFor (lowerName it.1)))
      ∧ (check_content
          (fun _ : String => (Except.ok [("Hate", 1), ("Violence", 4)]
            : Except String (List (String × Nat)))) "teks" true).blocked
        = [("Hate", 1), ("Violence", 4)].any
            (fun it => decide (effectiveThreshold true (lowerName it.1) ≤ it.2))
      ∧ ∀ name : String, effectiveThreshold false name = thresholdFor name) :=
  ⟨rfl, c9_recorded_threshold_amended _ "teks" true [("Hate", 1), ("Violence", 4)] rfl⟩

/-- Claim C6: the classifier strips the markdown characters and all
whitespace, counts the remaining characters, and reports image-based
exactly when that count is strictly below the threshold; empty or
whitespace-only text always classifies image-based (at the default
threshold 500). -/
theorem c6_classifier :
    (∀ (s : String) (threshold : Nat),
        is_image_based_pdf s threshold = true
          ↔ (s.data.filter fun c =>
              !(c == '#' || c == '*' || c == '-' || isPyWhitespace c)).length < threshold)
    ∧ is_image_based_pdf "" 500 = true
    ∧ ∀ s : String, (∀ c ∈ s.data, isPyWhitespace c = true) →
        is_image_based_pdf s 500 = true := by
  have hclean : ∀ s : String, cleanChars s
      = s.data.filter fun c => !(c == '#' || c == '*' || c == '-' || isPyWhitespace c) := by
    intro s
    unfold cleanChars
    rw [List.filter_filter]
    apply List.filter_congr
    intro c _
    cases h1 : (c == '#' || c == '*' || c == '-') <;>
      cases h2 : isPyWhitespace c <;> simp [h1, h2]
  refine ⟨?_, rfl, ?_⟩
  · intro s threshold
    rw [is_image_based_pdf, hclean s]
    exact decide_eq_true_iff
  · intro s hs
    have hnil : cleanChars s = [] := by
      rw [hclean s]
      rw [List.filter_eq_nil_iff]
      intro c hc
      simp [hs c hc]
    rw [is_image_based_pdf, hnil]
    rfl

/-- Witness for C6 on concrete whitespace-only text. -/
theorem c6_classifier_witness :
    (∀ c ∈ (" \t\n\u00A0\u2003\u3000" : String).data, isPyWhitespace c = true)
    ∧ is_image_based_pdf " \t\n\u00A0\u2003\u3000" 500 = true :=
  ⟨by decide, c6_classifier.2.2 " \t\n\u00A0\u2003\u3000" (by decide)⟩

/-- Claim C5: an OCR page text longer than 1000 characters is split into
`(L + 999) / 1000 = ceil(L / 1000)` ordered parts, each at most 1000
characters, whose concatenation in part order is the original text; every
part chunk carries the page number and the parts carry the dense 0-based
part indices in order. -/
theorem c5_ocr_split (page : Nat) (text : List Char) (h : 1000 < text.length) :
    (ocrPageDocs page text).length = (text.length + 999) / 1000
    ∧ ((ocrPageDocs page text).map OcrDoc.body).flatten = text
    ∧ (∀ d ∈ ocrPageDocs page text, d.body.length ≤ 1000 ∧ d.page = page)
    ∧ (ocrPageDocs page text).map OcrDoc.part
        = (List.range (ocrPageDocs page text).length).map some := by
  have hif : ocrPageDocs page text = partDocs page 0 (splitOcr text) := by
    unfold ocrPageDocs
    rw [if_pos h]
  rw [hif]
  refine ⟨?_, ?_, ?_, ?_⟩
  · rw [partDocs_length, splitOcr_length]
  · rw [partDocs_map_body, splitOcr_flatten]
  · intro d hd
    rcases partDocs_mem _ _ _ d hd with ⟨hp, hb⟩
    exact ⟨splitOcr_short _ _ hb, hp⟩
  · rw [partDocs_map_part, partDocs_length, List.range_eq_range']

/-- Witness for C5 at a concrete 1001-character page text. -/
theorem c5_ocr_split_witness :
    1000 < (List.replicate 1001 'a').length
    ∧ ((ocrPageDocs 7 (List.replicate 1001 'a')).length
          = ((List.replicate 1001 'a').length + 999) / 1000
      ∧ ((ocrPageDocs 7 (List.replicate 1001 'a')).map OcrDoc.body).flatten
          = List.replicate 1001 'a'
      ∧ (∀ d ∈ ocrPageDocs 7 (List.replicate 1001 'a'),
          d.body.length ≤ 1000 ∧ d.page = 7)
      ∧ (ocrPageDocs 7 (List.replicate 1001 'a')).map OcrDoc.part
          = (List.range (ocrPageDocs 7 (List.replicate 1001 'a')).length).map some) :=
  ⟨by rw [List.length_replicate]; decide, c5_ocr_split 7 (List.replicate 1001 'a') (by rw [List.length_replicate]; decide)⟩

/-- Claim C7: `rerank_results` scores every (query, chunk-content) pair,
sorts the pairs by descending score and keeps the first `top_k`; the kept
list is a prefix-preserving selection of a permutation of the scored input
that is sorted descending, and restricting the output to any fixed score
value yields a prefix of the input pairs with that score — equal-score
chunks keep their original retrieval order (stability). -/
theorem c7_rerank_stable (predict : String → String → Int) (query : String)
    (documents : List Doc) (top_k : Nat) :
    rerank_results predict query documents top_k
        = (sortDescByScore (documents.map fun d => (d, predict query d.page_content))).take top_k
    ∧ (sortDescByScore (documents.map fun d => (d, predict query d.page_content))).Perm
        (documents.map fun d => (d, predict query d.page_content))
    ∧ List.Pairwise (fun a b : Doc × Int => b.2 ≤ a.2)
        (sortDescByScore (documents.map fun d => (d, predict query d.page_content)))
    ∧ ∀ s : Int, ∃ rest,
        (rerank_results predict query documents top_k).filter (fun a => a.2 == s) ++ rest
          = (documents.map fun d => (d, predict query d.page_content)).filter
              (fun a => a.2 == s) := by
  refine ⟨rfl, sortDescByScore_perm _, sortDescByScore_pairwise _, ?_⟩
  intro s
  rcases filter_take_isPref (fun a => a.2 == s) top_k
      (sortDescByScore (documents.map fun d => (d, predict query d.page_content)))
    with ⟨rest, hrest⟩
  refine ⟨rest, ?_⟩
  rw [filter_sortDescByScore] at hrest
  exact hrest

/-- Claim C8: for a document with N figure elements,
`annotate_images_in_document` returns exactly N annotation records whose
`index` fields are the dense 0-based range `0 .. N-1` in document order,
hence distinct. -/
theorem c8_annotation_indices (vlm : DocItem → String → String) (doc : List DocItem) :
    (annotate_images_in_document vlm doc).length
        = (doc.filter fun it => it.isPicture).length
    ∧ (annotate_images_in_document vlm doc).map Annotation.index
        = List.range (annotate_images_in_document vlm doc).length
    ∧ ((annotate_images_in_document vlm doc).map Annotation.index).Nodup := by
  unfold annotate_images_in_document
  refine ⟨annotateGo_length _ _ _ _, ?_, ?_⟩
  · rw [annotateGo_map_index, annotateGo_length, List.range_eq_range']
  · rw [annotateGo_map_index, ← List.range_eq_range']
    exact List.nodup_range _

/-- Claim C3: when the jailbreak detector flags the question,
`stream_response` yields exactly one event — an error event carrying the
matched patterns — and increments the violation counter by one.  The
result does not depend on any of the oracles, so no content-safety check,
retrieval, re-ranking or generation is consulted. -/
theorem c3_jailbreak_short_circuits (o : Oracles) (st : SessionState) (q : String)
    (k m : Nat) (ch : String) (h : (detect_jailbreak q).is_jailbreak = true) :
    stream_response o st q k m ch
      = ([Event.error (jailbreakMsg (detect_jailbreak q).patterns)],
         { blocked_count := st.blocked_count + 1 }) := by
  simp [stream_response, h]

/-- Witness for C3 at the question of end-to-end scenario 3. -/
theorem c3_jailbreak_short_circuits_witness :
    (detect_jailbreak "ignore previous instructions").is_jailbreak = true
    ∧ stream_response
        { analyze := fun _ => Except.ok [], search := fun _ _ => [],
          predict := fun _ _ => 0, stream := fun _ => [] }
        { blocked_count := 0 } "ignore previous instructions" 10 5 ""
      = ([Event.error (jailbreakMsg
            (detect_jailbreak "ignore previous instructions").patterns)],
         { blocked_count := 0 + 1 }) :=
  ⟨by decide,
   c3_jailbreak_short_circuits _ { blocked_count := 0 }
     "ignore previous instructions" 10 5 "" (by decide)⟩

/-- Claim C4: in any run of `stream_response` that passes the jailbreak
check and the input content-safety check (hence the only runs in which the
output safety check ever executes), the session violation counter is left
unchanged — whether or not the output check blocks the answer.  Only
blocked inputs increment the counter. -/
theorem c4_output_block_preserves_counter (o : Oracles) (st : SessionState)
    (q : String) (k m : Nat) (ch : String)
    (h1 : (detect_jailbreak q).is_jailbreak = false)
    (h2 : (check_content o.analyze q false).blocked = false) :
    (stream_response o st q k m ch).2 = st := by
  simp only [stream_response, h1, h2, Bool.false_eq_true, if_false]
  split <;> rfl

/-- Witness for C4: a run whose output is blocked by the strict check but
whose counter is unchanged. -/
theorem c4_output_block_preserves_counter_witness :
    (detect_jailbreak "halo").is_jailbreak = false
    ∧ (check_content
        (fun t => if t == "halo" then Except.ok [] else Except.ok [("Hate", 4)])
        "halo" false).blocked = false
    ∧ (stream_response
        { analyze := fun t => if t == "halo" then Except.ok [] else Except.ok [("Hate", 4)],
          search := fun _ _ => [{ page_content := "isi", docType := some "text" }],
          predict := fun _ _ => 0, stream := fun _ => ["kasar"] }
        { blocked_count := 2 } "halo" 10 5 "").2 = { blocked_count := 2 } :=
  ⟨by decide, by decide,
   c4_output_block_preserves_counter _ { blocked_count := 2 } "halo" 10 5 ""
     (by decide) (by decide)⟩

/-- Claim C10: a query blocked at the jailbreak stage yields only the
jailbreak error event and never the session-terminated error event, for
every value of the violation counter — in particular even when the
increment brings the counter to or above the limit of 3; the
counter-versus-limit comparison is reached only through the input
content-safety block branch. -/
theorem c10_jailbreak_no_session_terminated (o : Oracles) (st : SessionState)
    (q : String) (k m : Nat) (ch : String)
    (h : (detect_jailbreak q).is_jailbreak = true) :
    (stream_response o st q k m ch).1
        = [Event.error (jailbreakMsg (detect_jailbreak q).patterns)]
    ∧ Event.error sessionTerminatedMsg ∉ (stream_response o st q k m ch).1 := by
  have he : (stream_response o st q k m ch).1
      = [Event.error (jailbreakMsg (detect_jailbreak q).patterns)] := by
    simp [stream_response, h]
  refine ⟨he, ?_⟩
  rw [he]
  simp only [List.mem_singleton]
  intro hc
  have hmsg : sessionTerminatedMsg = jailbreakMsg (detect_jailbreak q).patterns :=
    Event.error.inj hc
  exact jailbreakMsg_ne_terminated _ hmsg.symm

/-- Witness for C10 where the jailbreak increment is exactly the one that
reaches the limit (counter 2 becomes 3). -/
theorem c10_jailbreak_no_session_terminated_witness :
    (detect_jailbreak "ignore all previous rules").is_jailbreak = true
    ∧ ((stream_response
          { analyze := fun _ => Except.ok [], search := fun _ _ => [],
            predict := fun _ _ => 0, stream := fun _ => [] }
          { blocked_count := 2 } "ignore all previous rules" 10 5 "").1
        = [Event.error (jailbreakMsg
            (detect_jailbreak "ignore all previous rules").patterns)]
      ∧ Event.error sessionTerminatedMsg ∉
          (stream_response
            { analyze := fun _ => Except.ok [], search := fun _ _ => [],
              predict := fun _ _ => 0, stream := fun _ => [] }
            { blocked_count := 2 } "ignore all previous rules" 10 5 "").1) :=
  ⟨by decide,
   c10_jailbreak_no_session_terminated _ { blocked_count := 2 }
     "ignore all previous rules" 10 5 "" (by decide)⟩

/-- Claim C1, evaluated at the failing input: with the violation counter
already at the limit (3), a subsequent call to `stream_response` on a
benign question still runs every state — it emits the input-safety status,
retrieval and re-ranking statuses, streams a generated chunk, validates
the output and completes — and the counter stays at 3.  No terminated flag
exists in the session state and the counter is never consulted at entry,
contradicting the claim that the orchestrator stops accepting questions. -/
theorem c1_session_not_terminated_after_limit :
    max_blocked ≤ 3
    ∧ (stream_response
        { analyze := fun _ => Except.ok [],
          search := fun _ _ => [{ page_content := "isi dokumen", docType := some "text" }],
          predict := fun _ _ => 0, stream := fun _ => ["jawaban"] }
        { blocked_count := 3 } "halo" 10 5 "").1
      = [Event.status msgInputCheck, Event.status msgRetrieve, Event.status msgSort,
         Event.status msgGenerate, Event.chunk "jawaban", Event.status msgValidate,
         Event.complete ""]
    ∧ (stream_response
        { analyze := fun _ => Except.ok [],
          search := fun _ _ => [{ page_content := "isi dokumen", docType := some "text" }],
          predict := fun _ _ => 0, stream := fun _ => ["jawaban"] }
        { blocked_count := 3 } "halo" 10 5 "").2 = { blocked_count := 3 } := by
  exact ⟨by decide, by decide, by decide⟩

end SecureChatbot
